import Mathlib

/-
Verification of the session/message orchestration logic of the AI Live Sales
Assistant (React + Gemini Live + MCP client).

Shallow embedding of:
  * the chat data model (types.ts: AppState, ChatMessage),
  * the `onmessage` event handlers of `useGeminiLive` in
    src/hooks/useGeminiLive.ts (input/output transcription, model-turn audio
    scheduling, turn-complete, interrupted, inline tool-call processing),
  * `processToolCalls` of the earlier hook revision (never-empty fallback),
  * the MCP client hook `useMcpClient` (executeToolCall, bounded retry),
  * the pure helpers in utils/mcpToolConverter.ts,
  * the Float32 to Int16 PCM conversion in `createBlob`.

JavaScript values flowing through the tool path are modelled by a small JSON
value type `JValue` (numbers as integers; none of the verified properties
depend on fractional numeric payloads).  Wall-clock timestamps (`Date.now()`,
`new Date()`) are outside the model: message identity is kept positional.
Asynchronous handlers are modelled as functions from the pre-state and the
environment's answers (tool outcomes, audio-clock readings) to the post-state
plus the list of outbound effects.
-/

namespace AiLive

/-- Conversation phase, from `AppState` in types.ts. -/
inductive AppState where
  | IDLE
  | LISTENING
  | PROCESSING
  | SPEAKING
deriving DecidableEq, Repr

/-- Message author role, from `ChatMessage.role` in types.ts. -/
inductive Role where
  | user
  | assistant
  | system
deriving DecidableEq, Repr

/-- Optional message category tag, from `ChatMessage.type` in types.ts. -/
inductive MsgType where
  | voice
  | toolStart
  | toolResult
  | toolError
  | status
deriving DecidableEq, Repr

/-- A JSON-like value standing in for the untyped JavaScript payloads that
flow through the MCP tool path.  Objects keep field insertion order, matching
`Object.keys`. -/
inductive JValue where
  | null
  | bool (b : Bool)
  | num (n : Int)
  | str (s : String)
  | arr (elems : List JValue)
  | obj (fields : List (String × JValue))

/-- JavaScript truthiness of a `JValue` (`undefined` is modelled as a missing
`Option`, never as a `JValue`). -/
def jsTruthy : JValue → Bool
  | .null => false
  | .bool b => b
  | .num n => n != 0
  | .str s => s != ""
  | .arr _ => true
  | .obj _ => true

/-- Property lookup `v.key` on a modelled JavaScript value: defined fields of
an object are found, everything else yields `undefined` (`none`). -/
def jsField : JValue → String → Option JValue
  | .obj fields, key => fields.lookup key
  | _, _ => none

/-- Whether a modelled value is a string (JS `typeof v === 'string'`). -/
def jsIsString : JValue → Bool
  | .str _ => true
  | _ => false

/-- JS `typeof v === 'object' && v !== null` (arrays included). -/
def jsIsObjectLike : JValue → Bool
  | .arr _ => true
  | .obj _ => true
  | _ => false

/-- JS `String.prototype.includes` on our strings: `pat` occurs in `s`.
Implemented via `splitOn`, which returns more than one piece exactly when a
non-empty pattern occurs. -/
def jsIncludes (s pat : String) : Bool :=
  (s.splitOn pat).length != 1

/-- Whitespace in the sense of JS `String.prototype.trim` (the ASCII
subset: space, tab, line feed, carriage return, vertical tab, form
feed). -/
def isJsWhitespace (c : Char) : Bool :=
  c = ' ' || c = '\t' || c = '\n' || c = '\r' || c = '\x0b' || c = '\x0c'

/-- JS `String.prototype.trim`: strip leading and trailing whitespace. -/
def jsTrim (s : String) : String :=
  ⟨((s.data.dropWhile isJsWhitespace).reverse.dropWhile
      isJsWhitespace).reverse⟩

/-- One chat transcript entry, from `ChatMessage` in types.ts.  The id string
and timestamps are derived from `Date.now()` and are outside the model;
ordering is positional in the transcript list. -/
structure ChatMessage where
  role : Role
  content : String
  mtype : Option MsgType
  toolName : Option String
  toolData : Option JValue

/-- Error kinds, from `AppError.type` in types.ts. -/
inductive ErrorType where
  | CONNECTION
  | AUDIO
  | API
  | TOOL
  | MCP
deriving DecidableEq, Repr

/-- A scheduled playback source: an `AudioBufferSourceNode` that has been
`start`ed at `startTime` for `duration` seconds and not yet removed from
`outputSourcesRef` by its `ended` listener. -/
structure Source where
  sid : Nat
  startTime : Rat
  duration : Rat
deriving Repr

/-- The orchestrator state visible to the `useGeminiLive` handlers:
React state (`messages`, `error`), the audio-state hook's phase, and the
mutable refs (`lastInputTranscription`, `lastOutputTranscription`,
`isProcessingTool`, `outputSourcesRef`, `nextStartTimeRef`).  `hasSession`
models `liveSession` being non-null, `mcpConnected` the MCP hook's flag and
`hasOutputCtx` a non-null `outputAudioContextRef`. -/
structure OrchState where
  phase : AppState
  messages : List ChatMessage
  lastInputTranscription : String
  lastOutputTranscription : String
  isProcessingTool : Bool
  outputSources : List Source
  nextStartTime : Rat
  nextSourceId : Nat
  error : Option ErrorType
  hasSession : Bool
  mcpConnected : Bool
  hasOutputCtx : Bool
  isConnected : Bool

/-- Handler for `e.serverContent.inputTranscription` (user speech fragment),
useGeminiLive.ts lines 398-421: append a fresh user message when the fragment
differs from the last one recorded and is non-blank after trimming, then
always `setState('LISTENING')`. -/
def handleInputTranscription (s : OrchState) (text : String) : OrchState :=
  let s1 :=
    if text ≠ s.lastInputTranscription ∧ (jsTrim text).length > 0 then
      { s with lastInputTranscription := text,
               messages := s.messages ++
                 [{ role := .user, content := text,
                    mtype := none, toolName := none, toolData := none }] }
    else s
  { s1 with phase := .LISTENING }

/-- Handler for `e.serverContent.outputTranscription` (model speech fragment),
useGeminiLive.ts lines 424-446: `setState('SPEAKING')` first, then append a
fresh assistant message under the same deduplication guard. -/
def handleOutputTranscription (s : OrchState) (text : String) : OrchState :=
  let s1 := { s with phase := .SPEAKING }
  if text ≠ s.lastOutputTranscription ∧ (jsTrim text).length > 0 then
    { s1 with lastOutputTranscription := text,
              messages := s1.messages ++
                [{ role := .assistant, content := text,
                   mtype := none, toolName := none, toolData := none }] }
  else s1

/-- Scheduling of one decoded audio part from `modelTurn.parts`,
useGeminiLive.ts lines 449-477: raise the watermark to at least the output
context's `currentTime`, start a source there, and advance the watermark by
the buffer duration.  Skipped when the output context is gone. -/
def scheduleAudioChunk (currentTime : Rat) (s : OrchState) (duration : Rat) :
    OrchState :=
  if s.hasOutputCtx then
    let start := max s.nextStartTime currentTime
    { s with nextStartTime := start + duration,
             outputSources := s.outputSources ++
               [{ sid := s.nextSourceId, startTime := start,
                  duration := duration }],
             nextSourceId := s.nextSourceId + 1 }
  else s

/-- All audio parts of one `modelTurn`, in order. -/
def handleModelTurn (s : OrchState) (currentTime : Rat)
    (chunks : List Rat) : OrchState :=
  chunks.foldl (scheduleAudioChunk currentTime) s

/-- Handler for `e.serverContent.turnComplete`, useGeminiLive.ts lines
480-483: move to LISTENING unless a tool call is being processed.  The
source delays the `setState` by a 1 s timer; the model takes the transition
immediately. -/
def handleTurnComplete (s : OrchState) (turnComplete : Bool) : OrchState :=
  if turnComplete ∧ ¬ s.isProcessingTool then
    { s with phase := .LISTENING }
  else s

/-- Handler for `e.serverContent.interrupted`, useGeminiLive.ts lines
486-493: stop and drop every source still registered, and reset the playback
watermark to zero. -/
def handleInterrupted (s : OrchState) (interrupted : Bool) : OrchState :=
  if interrupted then
    { s with outputSources := [], nextStartTime := 0 }
  else s

/-- The fields of a `serverContent` inbound event that the handler reads.
Audio parts are represented by their decoded buffer durations. -/
structure ServerContent where
  inputTranscription : Option String
  outputTranscription : Option String
  modelTurnAudio : List Rat
  turnComplete : Bool
  interrupted : Bool

/-- The full `serverContent` branch of the `onmessage` callback, in source
order: input transcription, output transcription, model-turn audio,
turn-complete, interrupted. -/
def handleServerContent (s : OrchState) (currentTime : Rat)
    (sc : ServerContent) : OrchState :=
  let s1 := match sc.inputTranscription with
    | some t => handleInputTranscription s t
    | none => s
  let s2 := match sc.outputTranscription with
    | some t => handleOutputTranscription s1 t
    | none => s1
  let s3 := handleModelTurn s2 currentTime sc.modelTurnAudio
  let s4 := handleTurnComplete s3 sc.turnComplete
  handleInterrupted s4 sc.interrupted

/-- A `serverContent` event carrying only an input-transcription fragment. -/
def inputEvent (t : String) : ServerContent :=
  { inputTranscription := some t, outputTranscription := none,
    modelTurnAudio := [], turnComplete := false, interrupted := false }

/-- A `serverContent` event carrying only an output-transcription fragment. -/
def outputEvent (t : String) : ServerContent :=
  { inputTranscription := none, outputTranscription := some t,
    modelTurnAudio := [], turnComplete := false, interrupted := false }

/-- A `serverContent` event carrying only the turn-complete flag. -/
def turnCompleteEvent : ServerContent :=
  { inputTranscription := none, outputTranscription := none,
    modelTurnAudio := [], turnComplete := true, interrupted := false }

/-- A `serverContent` event carrying only the interrupted flag. -/
def interruptedEvent : ServerContent :=
  { inputTranscription := none, outputTranscription := none,
    modelTurnAudio := [], turnComplete := false, interrupted := true }

/-- A `serverContent` event carrying only audio parts. -/
def audioEvent (chunks : List Rat) : ServerContent :=
  { inputTranscription := none, outputTranscription := none,
    modelTurnAudio := chunks, turnComplete := false, interrupted := false }

/-- State at session open (`onopen` has run: phase LISTENING, connected,
empty transcript, deduplication refs reset by `startConversation`). -/
def openState : OrchState :=
  { phase := .LISTENING, messages := [], lastInputTranscription := "",
    lastOutputTranscription := "", isProcessingTool := false,
    outputSources := [], nextStartTime := 0, nextSourceId := 0,
    error := none, hasSession := true, mcpConnected := true,
    hasOutputCtx := true, isConnected := true }

/-- Messages of a given role in a transcript. -/
def userMessages (msgs : List ChatMessage) : List ChatMessage :=
  msgs.filter (fun m => m.role == Role.user)

/-- JS `String(v)` conversion of a modelled value (template-literal display):
arrays join their elements with commas, `null` elements rendering empty, and
plain objects render as the standard object tag. -/
def jsString : JValue → String
  | .null => "null"
  | .bool b => cond b "true" "false"
  | .num n => toString n
  | .str s => s
  | .obj _ => "[object Object]"
  | .arr a => String.intercalate ","
      (a.attach.map (fun x =>
        match x with
        | ⟨.null, _⟩ => ""
        | ⟨v, _⟩ => jsString v))

/-- Display of a possibly-`undefined` value inside a template literal. -/
def jsDisplay : Option JValue → String
  | none => "undefined"
  | some v => jsString v

/-- JS `v || dflt` rendered to a string: the display of `v` when truthy,
otherwise `dflt`. -/
def jsOrDisplay (v : Option JValue) (dflt : String) : String :=
  match v with
  | some w => if jsTruthy w then jsString w else dflt
  | none => dflt

/-- Truthiness of the field `k` of `v` (false when absent). -/
def truthyField (v : JValue) (k : String) : Bool :=
  match jsField v k with
  | some w => jsTruthy w
  | none => false

/-- Whether field `k` of `v` is present and a string. -/
def fieldIsString (v : JValue) (k : String) : Bool :=
  match jsField v k with
  | some w => jsIsString w
  | none => false

/-- String content of field `k` of `v`, defaulting to the empty string. -/
def strFieldD (v : JValue) (k : String) : String :=
  match jsField v k with
  | some (.str s) => s
  | _ => ""

/-- The `formatToolResult` helper of useGeminiLive.ts lines 34-58: a one-line
human-readable summary of a tool response, with special cases for recognised
SAP shapes and a generic fallback. -/
def formatToolResult (response : Option JValue) (toolName : String) : String :=
  match response with
  | none => "Sin datos"
  | some r =>
    if jsTruthy r = false then "Sin datos"
    else
      match r with
      | .arr [] => "No se encontraron datos"
      | .arr (firstItem :: rest) =>
          if jsIncludes toolName "SalesOrder" && truthyField firstItem "SalesOrder" then
            "Orden #" ++ jsDisplay (jsField firstItem "SalesOrder") ++
              ", Monto: " ++ jsOrDisplay (jsField firstItem "TotalNetAmount") "N/A"
          else if jsIncludes toolName "Customer" && truthyField firstItem "Customer" then
            "Cliente: " ++
              jsOrDisplay (jsField firstItem "CustomerName")
                (jsDisplay (jsField firstItem "Customer"))
          else
            toString (rest.length + 1) ++ " registro(s) encontrado(s)"
      | .obj fields =>
          let keys := fields.map Prod.fst
          "Datos: " ++ String.intercalate ", " (keys.take 3) ++
            (if keys.length > 3 then "..." else "")
      | prim => (jsString prim).take 100

/-- One discovered tool, from `McpTool` in types.ts (the schema is kept as a
raw JSON value, as the converter only passes it through). -/
structure McpTool where
  name : String
  description : String
  inputSchema : JValue

/-- The `validateMcpTool` type guard of mcpToolConverter.ts lines 40-50:
an object with string `name`, string `description`, and an object
`inputSchema` carrying a string `type`. -/
def validateMcpTool (tool : JValue) : Bool :=
  jsIsObjectLike tool &&
  fieldIsString tool "name" &&
  fieldIsString tool "description" &&
  (match jsField tool "inputSchema" with
   | some schema => jsIsObjectLike schema && fieldIsString schema "type"
   | none => false)

/-- The projection applied by `processMcpToolsResponse` to every entry that
passed validation (mcpToolConverter.ts lines 63-67). -/
def projectMcpTool (tool : JValue) : McpTool :=
  { name := strFieldD tool "name",
    description := strFieldD tool "description",
    inputSchema := (jsField tool "inputSchema").getD .null }

/-- `processMcpToolsResponse` of mcpToolConverter.ts lines 55-68: empty list
when the response is falsy or `tools` is not an array, otherwise the valid
entries, in order, projected to `McpTool`. -/
def processMcpToolsResponse (response : Option JValue) : List McpTool :=
  match response with
  | none => []
  | some r =>
    if jsTruthy r = false then []
    else
      match jsField r "tools" with
      | some (.arr ts) => (ts.filter validateMcpTool).map projectMcpTool
      | _ => []

/-- `processToolExecutionResponse` of mcpToolConverter.ts lines 86-105:
throws (modelled as `Except.error`) on a falsy response or an `error` field,
otherwise unwraps `content` or `result` or returns the response whole. -/
def processToolExecutionResponse (response : Option JValue) :
    Except String JValue :=
  match response with
  | none => .error "Empty response from MCP server"
  | some r =>
    if jsTruthy r = false then .error "Empty response from MCP server"
    else if truthyField r "error" then
      .error ("MCP tool execution error: " ++
        (match jsField r "error" with
         | some e => jsOrDisplay (jsField e "message") "Unknown error"
         | none => "Unknown error"))
    else if truthyField r "content" then .ok ((jsField r "content").getD .null)
    else if truthyField r "result" then .ok ((jsField r "result").getD .null)
    else .ok r

/-- The uniform result shape `FunctionResponse` returned to the orchestrator
by the MCP hook. `response = none` models the `undefined` JS value. -/
structure FunctionResponse where
  id : String
  name : String
  response : Option JValue

/-- `formatToolResponseForGemini` of mcpToolConverter.ts lines 110-150:
empty/falsy responses become a failure-shaped result, `error`-tagged
responses become a failure-shaped result, anything else a success-shaped
result.  The wall-clock `timestamp` field of the success branch is outside
the model. -/
def formatToolResponseForGemini (toolName toolId : String)
    (response : Option JValue) : FunctionResponse :=
  let falsy := match response with | none => true | some r => !jsTruthy r
  let isEmptyArr := match response with | some (.arr []) => true | _ => false
  if falsy || isEmptyArr then
    { id := toolId, name := toolName,
      response := some (.obj
        [("success", .bool false),
         ("message", .str ("No data found for the requested " ++ toolName ++
           " parameters. Please verify the input values and try again.")),
         ("data", .null),
         ("isEmpty", .bool true)]) }
  else
    let r := response.getD .null
    if truthyField r "error" then
      { id := toolId, name := toolName,
        response := some (.obj
          [("success", .bool false),
           ("message", .str (jsOrDisplay (jsField r "message")
             ("Tool execution failed: " ++ jsDisplay (jsField r "error")))),
           ("error", (jsField r "error").getD .null),
           ("data", .null)]) }
    else
      { id := toolId, name := toolName,
        response := some (.obj
          [("success", .bool true),
           ("message", .str ("Successfully executed " ++ toolName)),
           ("data", r)]) }

/-- `extractMcpError` of mcpToolConverter.ts lines 155-169, specialised to a
caught `Error` carrying message `msg` (the string-typed and nested-error
branches of the source are unreachable for such values): the message when
truthy, else the generic fallback. -/
def extractMcpError (msg : String) : String :=
  if msg != "" then msg else "Unknown MCP server error"

/-- A tool invocation request from the live session (`functionCall`). -/
structure FunctionCall where
  id : String
  name : String
  args : JValue

/-- `executeToolCall` of useMcpClient (hook source, lines 138-188).
`connected` models `client && isConnected`; `rpc` is the settled outcome of
`client.callTool` (`Except.error` for a rejection carrying the error
message).  A thrown error is modelled as `Except.error` in the result; a
resolved call as `Except.ok`.  Both the rejection path and a throw inside
`processToolExecutionResponse` land in the catch block, which formats a
failure-shaped result with the original correlation id (the non-serialized
`details` field is outside the model). -/
def executeToolCall (connected : Bool) (fc : FunctionCall)
    (rpc : Except String (Option JValue)) : Except String FunctionResponse :=
  if ¬ connected then .error "MCP client not connected"
  else .ok (match rpc with
    | .error e =>
        formatToolResponseForGemini fc.name fc.id
          (some (.obj [("error", .bool true),
                       ("message", .str (extractMcpError e))]))
    | .ok raw =>
        match processToolExecutionResponse raw with
        | .error e =>
            formatToolResponseForGemini fc.name fc.id
              (some (.obj [("error", .bool true),
                           ("message", .str (extractMcpError e))]))
        | .ok processed =>
            formatToolResponseForGemini fc.name fc.id (some processed))

/-- Settled outcome of one `await executeToolCall(functionCall)` as observed
by the orchestrator: a resolved `FunctionResponse`, or a rejection carrying
an error message (the empty string models an `Error` without a message). -/
inductive ToolOutcome where
  | resolved (resp : FunctionResponse)
  | threw (msg : String)

/-- JS `m || 'Unknown error'` on a caught error message. -/
def jsErrMsg (m : String) : String :=
  if m = "" then "Unknown error" else m

/-- JS `m || 'Error desconocido'` on a caught error message. -/
def jsErrMsgEs (m : String) : String :=
  if m = "" then "Error desconocido" else m

/-- JS `v || dflt` yielding a value (the string default when falsy). -/
def jsOrStr (v : Option JValue) (dflt : String) : JValue :=
  match v with
  | some w => if jsTruthy w then w else .str dflt
  | none => .str dflt

/-- One entry pushed onto `functionResponses` and later handed to
`sendToolResponse` (the wall-clock `timestamp` subfield is outside the
model). -/
structure ToolResponsePayload where
  id : String
  name : String
  response : JValue

/-- The per-invocation body of the inline tool-call loop, useGeminiLive.ts
lines 519-588: append a `tool-start` system message, then on success push
the result payload and append a `tool-result` message, and on a throw append
a `tool-error` message and push a failure payload with the same correlation
id. -/
def processOneInlineCall (acc : OrchState × List ToolResponsePayload)
    (c : FunctionCall × ToolOutcome) : OrchState × List ToolResponsePayload :=
  let s : OrchState := acc.1
  let fc := c.1
  let s := { s with messages := s.messages ++
    [({ role := .system,
        content := "🔧 Ejecutando herramienta " ++ fc.name ++ "...",
        mtype := some .toolStart, toolName := some fc.name,
        toolData := none } : ChatMessage)] }
  match c.2 with
  | .resolved mcpResponse =>
      let payload : ToolResponsePayload :=
        { id := fc.id, name := fc.name,
          response := .obj
            [("result", jsOrStr mcpResponse.response "Tool executed successfully"),
             ("source", .str fc.name)] }
      let s := { s with messages := s.messages ++
        [({ role := .system,
            content := "📊 Datos obtenidos de SAP: " ++
              formatToolResult mcpResponse.response fc.name,
            mtype := some .toolResult, toolName := some fc.name,
            toolData := mcpResponse.response } : ChatMessage)] }
      (s, acc.2 ++ [payload])
  | .threw m =>
      let s := { s with messages := s.messages ++
        [({ role := .system,
            content := "❌ Error ejecutando " ++ fc.name ++ ": " ++ jsErrMsgEs m,
            mtype := some .toolError, toolName := some fc.name,
            toolData := none } : ChatMessage)] }
      (s, acc.2 ++
        [{ id := fc.id, name := fc.name,
           response := .obj
             [("result", .str ("Tool execution failed: " ++ jsErrMsg m)),
              ("source", .str fc.name)] }])

/-- The inline `e.toolCall` branch of the `onmessage` callback,
useGeminiLive.ts lines 504-610: raise the processing flag and enter
PROCESSING; bail out (without sending) when the session or MCP client is
missing; otherwise run every invocation in order, send the collected batch
through `sendToolResponse` once, set a TOOL error if that send rejects
(`sendOk = false`), and finally clear the flag and return to LISTENING.
The second component lists the batches passed to `sendToolResponse`. -/
def handleToolCall (s : OrchState) (calls : List (FunctionCall × ToolOutcome))
    (sendOk : Bool) : OrchState × List (List ToolResponsePayload) :=
  let s0 := { s with isProcessingTool := true, phase := .PROCESSING }
  if ¬ (s0.hasSession && s0.mcpConnected) then
    ({ s0 with isProcessingTool := false, phase := .LISTENING }, [])
  else
    let folded := calls.foldl processOneInlineCall (s0, [])
    let s2 := if sendOk then folded.1 else { folded.1 with error := some .TOOL }
    ({ s2 with isProcessingTool := false, phase := .LISTENING }, [folded.2])

/-- Whether a payload's `response` is neither `undefined` nor `null` (our
payloads always carry a defined value, so only `null` is checked). -/
def payloadResponseOk (r : ToolResponsePayload) : Bool :=
  match r.response with
  | .null => false
  | _ => true

/-- The per-invocation body of `processToolCalls` in the earlier hook
revision (unnamed source, lines 301-355): a resolved response passing the
structural validation (`response && response.id && response.name &&
response.response !== undefined`) is forwarded (with the hardcoded test
payload of that revision), an invalid one is replaced by a fallback failure
payload, and a throw yields an error payload, always with the request's
correlation id. -/
def processOneP1Call (acc : List ToolResponsePayload)
    (c : FunctionCall × ToolOutcome) : List ToolResponsePayload :=
  let fc := c.1
  match c.2 with
  | .resolved resp =>
      if resp.id ≠ "" ∧ resp.name ≠ "" ∧ resp.response.isSome then
        let payload : ToolResponsePayload :=
          { id := resp.id, name := resp.name,
            response := .obj
              [("status", .str "SUCCESS"),
               ("message", .str ("Test response for tool " ++ resp.name ++ "."))] }
        acc ++ [payload]
      else
        let payload : ToolResponsePayload :=
          { id := fc.id, name := fc.name,
            response := .obj
              [("error", .str ("Invalid response structure from tool " ++ fc.name)),
               ("details", .str "Tool response validation failed")] }
        acc ++ [payload]
  | .threw m =>
      let payload : ToolResponsePayload :=
        { id := fc.id, name := fc.name,
          response := .obj
            [("error", .str ("Tool execution failed: " ++ jsErrMsg m)),
             ("details", .str (jsErrMsg m))] }
      acc ++ [payload]

/-- The batch that `processToolCalls` of the earlier hook revision (unnamed
source, lines 267-437) hands to `sendToolResponse`: collected responses,
then the never-empty fallback for an empty collection, then the final
validity filter, then the emergency fallback guaranteeing at least one
entry.  `none` models the one path that returns without sending (an empty
collection with no function call to synthesize a fallback from).  `Date.now`
in the emergency fallback id is modelled as 0. -/
def processToolCallsSent (calls : List (FunctionCall × ToolOutcome)) :
    Option (List ToolResponsePayload) :=
  let functionResponses := calls.foldl processOneP1Call []
  match functionResponses, calls.head? with
  | [], none => none
  | _, _ =>
    let withFallback :=
      match functionResponses, calls.head? with
      | [], some c =>
          [({ id := c.1.id, name := c.1.name,
              response := .obj
                [("error", .str "Tool execution failed - no valid responses generated"),
                 ("details", .str "All tool executions failed or returned invalid responses")] } :
            ToolResponsePayload)]
      | frs, _ => frs
    let validResponses := withFallback.filter
      (fun r => r.id.length > 0 && payloadResponseOk r)
    if validResponses.length = 0 then
      some [({ id := (match calls.head? with
                | some c => if c.1.id ≠ "" then c.1.id else "fallback-0"
                | none => "fallback-0"),
               name := (match calls.head? with
                | some c => if c.1.name ≠ "" then c.1.name else "unknown_tool"
                | none => "unknown_tool"),
               response := .obj
                 [("result", .str ("Tool execution completed with validation errors." ++
                    " Please check the tool configuration and try again."))] } :
             ToolResponsePayload)]
    else some validResponses

/-- Bounded retry constants of useMcpClient (hook source, lines 29-31 and
102-113): at most `maxRetries` automatic attempts, fixed 2 s delay between
them, and a 5 s delayed reconnection effect guarded by the same counter. -/
def maxRetries : Nat := 3

/-- Fixed delay, in milliseconds, before an automatic connect retry. -/
def retryDelayMs : Nat := 2000

/-- Delay, in milliseconds, of the error-driven reconnection effect. -/
def reconnectEffectDelayMs : Nat := 5000

/-- MCP connection bookkeeping: the `connectionAttempts` ref, the connected
flag, whether a `CONNECTION` error is surfaced, and whether a retry timer is
pending. -/
structure McpConnState where
  attempts : Nat
  connected : Bool
  errorSet : Bool
  retryScheduled : Bool
deriving DecidableEq, Repr

/-- State before the mount effect fires. -/
def initialMcpState : McpConnState :=
  { attempts := 0, connected := false, errorSet := false,
    retryScheduled := false }

/-- One failing run of `connect()` (hook source, lines 36-113): the attempt
counter is incremented, the `CONNECTION` error is set, and a 2 s retry is
scheduled exactly when the counter is still below `maxRetries`.  A call made
while connected returns at the duplicate-connection guard. -/
def connectFailStep (s : McpConnState) : McpConnState :=
  if s.connected then s
  else
    { attempts := s.attempts + 1, connected := false, errorSet := true,
      retryScheduled := s.attempts + 1 < maxRetries }

/-- Whether the 5 s reconnection effect (hook source, lines 208-217)
schedules another `connect()` in state `s`. -/
def reconnectEffectFires (s : McpConnState) : Bool :=
  s.errorSet && s.attempts < maxRetries

/-- The trace of connection states when every connect attempt fails:
the mount effect triggers attempt 1, and each later attempt happens only
when the previous failure scheduled a retry. -/
def failTrace : Nat → McpConnState
  | 0 => connectFailStep initialMcpState
  | n + 1 =>
      let s := failTrace n
      if s.retryScheduled then connectFailStep s else s

/-- Truncation toward zero of a rational, as JS `ToIntegerOrInfinity` does
for a finite number. -/
def ratTrunc (q : Rat) : Int := q.num.tdiv q.den

/-- The `ToInt16` store performed by an `Int16Array` element assignment:
truncate, reduce modulo 2^16, and reinterpret the residue as a signed 16-bit
value.  No clamping is involved. -/
def jsToInt16 (x : Rat) : Int :=
  let m := (ratTrunc x).emod 65536
  if 32768 ≤ m then m - 65536 else m

/-- The sample conversion of `createBlob`, useGeminiLive.ts lines 143-153:
`int16[i] = data[i] * 32768` for every captured Float32 sample.  Scaling a
binary float by 2^15 is exact, so the rational model is faithful. -/
def createBlobSamples (data : List Rat) : List Int :=
  data.map (fun x => jsToInt16 (x * 32768))

/-- `sendMessage` of useGeminiLive.ts lines 712-747: a no-op when there is
no session or it is not connected; otherwise append the user message, then
attempt `sendClientContent` — on success move to PROCESSING, on a throw set
an API error.  The boolean reports whether a send was attempted. -/
def sendMessage (s : OrchState) (msg : String) (sendOk : Bool) :
    OrchState × Bool :=
  if ¬ (s.hasSession && s.isConnected) then (s, false)
  else
    let s1 := { s with messages := s.messages ++
      [({ role := .user, content := msg, mtype := none, toolName := none,
          toolData := none } : ChatMessage)] }
    if sendOk then ({ s1 with phase := .PROCESSING }, true)
    else ({ s1 with error := some .API }, true)

/-- The well-formedness condition on a discovered tool entry as the
specification words it: a string `name`, a string `description`, and an
object `inputSchema` carrying a string `type`.  Stated independently of the
source's `validateMcpTool` so the two can be compared. -/
def wellFormedToolSpec (tool : JValue) : Bool :=
  fieldIsString tool "name" &&
  fieldIsString tool "description" &&
  (match jsField tool "inputSchema" with
   | some schema => jsIsObjectLike schema && fieldIsString schema "type"
   | none => false)

/-- Final state of the §8 scenario: session open, user fragment "Sho", user
fragment "Show me order 229", turn-complete. -/
def fragmentScenarioFinal : OrchState :=
  handleServerContent
    (handleServerContent (handleServerContent openState 0 (inputEvent "Sho")) 0
      (inputEvent "Show me order 229")) 0 turnCompleteEvent

/-- A demonstration tool-call batch of one invocation whose execution
throws. -/
def c1DemoBatch : List (FunctionCall × ToolOutcome) :=
  [({ id := "call-1", name := "get_SalesOrderList", args := .null },
    .threw "network down")]

/-- A speaking-phase state with one pending playback source and a raised
watermark. -/
def c6PreState : OrchState :=
  { openState with
      phase := .SPEAKING,
      outputSources := [{ sid := 0, startTime := 0, duration := 1 }],
      nextStartTime := 5 }

/-- A speaking-phase state with the tool-processing flag raised. -/
def c4ProcState : OrchState :=
  { openState with phase := .SPEAKING, isProcessingTool := true }

/-- A speaking-phase state with the tool-processing flag clear. -/
def c4SpeakState : OrchState :=
  { openState with phase := .SPEAKING }

/- ===================== Helper lemmas ===================== -/

theorem formatToolResponseForGemini_id (toolName toolId : String)
    (response : Option JValue) :
    (formatToolResponseForGemini toolName toolId response).id = toolId ∧
    (formatToolResponseForGemini toolName toolId response).response.isSome := by
  simp only [formatToolResponseForGemini]
  repeat' split
  all_goals exact ⟨rfl, rfl⟩

theorem processOneInlineCall_snd_length (acc : OrchState × List ToolResponsePayload)
    (c : FunctionCall × ToolOutcome) :
    ((processOneInlineCall acc c).2).length = acc.2.length + 1 := by
  rcases c with ⟨fc, out⟩
  cases out <;> simp [processOneInlineCall]

theorem foldl_inline_snd_length (calls : List (FunctionCall × ToolOutcome)) :
    ∀ acc : OrchState × List ToolResponsePayload,
      ((calls.foldl processOneInlineCall acc).2).length =
        acc.2.length + calls.length := by
  induction calls with
  | nil => intro acc; simp
  | cons c cs ih =>
      intro acc
      simp only [List.foldl_cons, ih, processOneInlineCall_snd_length,
        List.length_cons]
      omega

theorem processOneP1Call_length (acc : List ToolResponsePayload)
    (c : FunctionCall × ToolOutcome) :
    (processOneP1Call acc c).length = acc.length + 1 := by
  rcases c with ⟨fc, out⟩
  cases out with
  | resolved resp =>
      simp only [processOneP1Call]
      split <;> simp
  | threw m => simp [processOneP1Call]

theorem foldl_p1_length (calls : List (FunctionCall × ToolOutcome)) :
    ∀ acc : List ToolResponsePayload,
      (calls.foldl processOneP1Call acc).length = acc.length + calls.length := by
  induction calls with
  | nil => intro acc; simp
  | cons c cs ih =>
      intro acc
      simp only [List.foldl_cons, ih, processOneP1Call_length,
        List.length_cons]
      omega

theorem validateMcpTool_eq_wellFormedToolSpec :
    validateMcpTool = wellFormedToolSpec := by
  funext t
  cases t <;>
    simp [validateMcpTool, wellFormedToolSpec, fieldIsString, jsField,
      jsIsObjectLike]

theorem processToolCallsSent_never_empty
    (calls : List (FunctionCall × ToolOutcome)) (hn : calls ≠ []) :
    ∃ batch, processToolCallsSent calls = some batch ∧ batch ≠ [] := by
  rcases calls with _ | ⟨c0, cs⟩
  · exact absurd rfl hn
  · have hlen : ((c0 :: cs).foldl processOneP1Call []).length = cs.length + 1 := by
      rw [foldl_p1_length]
      simp
    cases hfr : (c0 :: cs).foldl processOneP1Call [] with
    | nil => rw [hfr] at hlen; simp at hlen
    | cons f fs =>
        simp only [processToolCallsSent, hfr, List.head?_cons]
        by_cases hv :
            ((f :: fs).filter
              (fun r => decide (r.id.length > 0) && payloadResponseOk r)).length = 0
        · rw [if_pos hv]
          exact ⟨_, rfl, by simp⟩
        · rw [if_neg hv]
          refine ⟨_, rfl, ?_⟩
          intro hfilter
          exact hv (by rw [hfilter]; rfl)

/- ===================== Claim theorems ===================== -/

/-- C1: every tool-call request batch of N invocations (N ≥ 1) handled by
the inline tool-call handler is forwarded to the session in a single
`sendToolResponse` call whose batch holds exactly N results (one per
invocation, success- or failure-shaped) and is never empty; the earlier
revision's `processToolCalls` likewise always sends a non-empty batch. -/
theorem toolCall_forwards_exactly_one_result_per_invocation
    (s : OrchState) (calls : List (FunctionCall × ToolOutcome)) (sendOk : Bool)
    (hs : s.hasSession = true) (hm : s.mcpConnected = true)
    (hn : calls ≠ []) :
    (handleToolCall s calls sendOk).2.length = 1 ∧
    (∀ batch ∈ (handleToolCall s calls sendOk).2,
      batch.length = calls.length ∧ batch ≠ []) ∧
    (∃ batch, processToolCallsSent calls = some batch ∧ batch ≠ []) := by
  have hsend : (handleToolCall s calls sendOk).2 =
      [(calls.foldl processOneInlineCall
        ({ s with isProcessingTool := true, phase := .PROCESSING }, [])).2] := by
    simp [handleToolCall, hs, hm]
  refine ⟨by rw [hsend]; rfl, ?_, processToolCallsSent_never_empty calls hn⟩
  intro batch hb
  rw [hsend] at hb
  simp only [List.mem_singleton] at hb
  subst hb
  have hL := foldl_inline_snd_length calls
      ({ s with isProcessingTool := true, phase := .PROCESSING }, [])
  have hcalls : calls.length ≠ 0 := by
    intro h0
    exact hn (List.length_eq_zero.mp h0)
  constructor
  · simpa using hL
  · intro hbe
    rw [hbe] at hL
    simp at hL
    exact hcalls hL.symm

theorem toolCall_forwards_exactly_one_result_per_invocation_witness :
    (handleToolCall openState c1DemoBatch true).2.length = 1 ∧
    (∀ batch ∈ (handleToolCall openState c1DemoBatch true).2,
      batch.length = c1DemoBatch.length ∧ batch ≠ []) ∧
    (∃ batch, processToolCallsSent c1DemoBatch = some batch ∧ batch ≠ []) :=
  toolCall_forwards_exactly_one_result_per_invocation openState c1DemoBatch
    true rfl rfl (by simp [c1DemoBatch])

/-- C2 counterexample: invoking `executeToolCall` before the tool-server
connection is established does not resolve with a failure-shaped result —
it throws `MCP client not connected` to the caller. -/
theorem executeToolCall_disconnected_throws :
    executeToolCall false
      { id := "call-1", name := "get_SalesOrderList", args := .null }
      (.ok (some (.str "data"))) = .error "MCP client not connected" := rfl

/-- C2 (amended): once the MCP client is connected, `executeToolCall`
always resolves with a `FunctionResponse` carrying the request's
correlation id and a defined response payload, for every outcome of the
underlying `callTool` round trip — rejection, malformed response, or
success; only an invocation made before the connection is established
throws. -/
theorem executeToolCall_connected_always_resolves
    (fc : FunctionCall) (rpc : Except String (Option JValue)) :
    ∃ r : FunctionResponse,
      executeToolCall true fc rpc = .ok r ∧ r.id = fc.id ∧
      r.response.isSome = true := by
  cases rpc with
  | error e =>
      refine ⟨formatToolResponseForGemini fc.name fc.id
        (some (.obj [("error", .bool true),
                     ("message", .str (extractMcpError e))])),
        by simp [executeToolCall], ?_, ?_⟩
      · exact (formatToolResponseForGemini_id _ _ _).1
      · exact (formatToolResponseForGemini_id _ _ _).2
  | ok raw =>
      cases hpr : processToolExecutionResponse raw with
      | error e =>
          refine ⟨formatToolResponseForGemini fc.name fc.id
            (some (.obj [("error", .bool true),
                         ("message", .str (extractMcpError e))])),
            by simp [executeToolCall, hpr], ?_, ?_⟩
          · exact (formatToolResponseForGemini_id _ _ _).1
          · exact (formatToolResponseForGemini_id _ _ _).2
      | ok processed =>
          refine ⟨formatToolResponseForGemini fc.name fc.id (some processed),
            by simp [executeToolCall, hpr], ?_, ?_⟩
          · exact (formatToolResponseForGemini_id _ _ _).1
          · exact (formatToolResponseForGemini_id _ _ _).2

/-- C3 (code evaluated at the failing input): after session open, user
fragments "Sho" then "Show me order 229" followed by turn-complete, the
transcript holds two user voice messages — one per distinct fragment —
rather than a single message updated in place as the claim states. -/
theorem userFragments_append_two_messages :
    (userMessages fragmentScenarioFinal.messages).length = 2 ∧
    (userMessages fragmentScenarioFinal.messages).map (fun m => m.content) =
      ["Sho", "Show me order 229"] := by decide

/-- C4: a turn-complete signal arriving while the tool-processing flag is
set leaves the orchestrator state (in particular the phase) unchanged; with
no tool call in flight it moves the phase from SPEAKING to LISTENING; and
the tool-call handler itself ends — only after the whole batch has been
processed and forwarded — with the flag cleared and the phase at
LISTENING. -/
theorem turnComplete_deferred_while_tool_in_flight
    (s : OrchState) (ct : Rat) (calls : List (FunctionCall × ToolOutcome))
    (sendOk : Bool) :
    (s.isProcessingTool = true →
      handleServerContent s ct turnCompleteEvent = s) ∧
    (s.isProcessingTool = false → s.phase = .SPEAKING →
      (handleServerContent s ct turnCompleteEvent).phase = .LISTENING) ∧
    (handleToolCall s calls sendOk).1.isProcessingTool = false ∧
    (handleToolCall s calls sendOk).1.phase = .LISTENING := by
  refine ⟨?_, ?_, ?_, ?_⟩
  · intro h
    simp [handleServerContent, turnCompleteEvent, handleModelTurn,
      handleTurnComplete, handleInterrupted, h]
  · intro h _
    simp [handleServerContent, turnCompleteEvent, handleModelTurn,
      handleTurnComplete, handleInterrupted, h]
  · simp only [handleToolCall]
    repeat' split
    all_goals rfl
  · simp only [handleToolCall]
    repeat' split
    all_goals rfl

theorem turnComplete_deferred_while_tool_in_flight_witness :
    handleServerContent c4ProcState 0 turnCompleteEvent = c4ProcState ∧
    (handleServerContent c4SpeakState 0 turnCompleteEvent).phase = .LISTENING ∧
    (handleToolCall openState c1DemoBatch true).1.isProcessingTool = false ∧
    (handleToolCall openState c1DemoBatch true).1.phase = .LISTENING :=
  ⟨(turnComplete_deferred_while_tool_in_flight c4ProcState 0 [] true).1 rfl,
   (turnComplete_deferred_while_tool_in_flight c4SpeakState 0 [] true).2.1
     rfl rfl,
   (turnComplete_deferred_while_tool_in_flight openState 0 c1DemoBatch
     true).2.2.1,
   (turnComplete_deferred_while_tool_in_flight openState 0 c1DemoBatch
     true).2.2.2⟩

/-- C5: an empty or whitespace-only transcript fragment — user or model —
leaves the transcript exactly as it was: no message is created and none is
updated. -/
theorem blank_fragment_leaves_transcript_unchanged
    (s : OrchState) (ct : Rat) (t : String) (h : jsTrim t = "") :
    (handleServerContent s ct (inputEvent t)).messages = s.messages ∧
    (handleServerContent s ct (outputEvent t)).messages = s.messages := by
  constructor <;>
    simp [handleServerContent, inputEvent, outputEvent,
      handleInputTranscription, handleOutputTranscription, handleModelTurn,
      handleTurnComplete, handleInterrupted, h]

theorem blank_fragment_leaves_transcript_unchanged_witness :
    (handleServerContent openState 0 (inputEvent "   ")).messages =
      openState.messages ∧
    (handleServerContent openState 0 (outputEvent "   ")).messages =
      openState.messages :=
  blank_fragment_leaves_transcript_unchanged openState 0 "   " (by decide)

/-- C6: an interruption signal in the speaking phase cancels every still
registered playback source and resets the watermark to zero while leaving
phase, transcript, deduplication refs, tool flag and error untouched; an
audio frame arriving afterwards is scheduled normally, starting at the
output clock's current time. -/
theorem interruption_cancels_playback_preserves_state
    (s : OrchState) (ct ct2 d : Rat) (_hphase : s.phase = .SPEAKING)
    (hctx : s.hasOutputCtx = true) (hct2 : 0 ≤ ct2) :
    (handleServerContent s ct interruptedEvent).outputSources = [] ∧
    (handleServerContent s ct interruptedEvent).nextStartTime = 0 ∧
    (handleServerContent s ct interruptedEvent).phase = s.phase ∧
    (handleServerContent s ct interruptedEvent).messages = s.messages ∧
    (handleServerContent s ct interruptedEvent).lastInputTranscription =
      s.lastInputTranscription ∧
    (handleServerContent s ct interruptedEvent).lastOutputTranscription =
      s.lastOutputTranscription ∧
    (handleServerContent s ct interruptedEvent).isProcessingTool =
      s.isProcessingTool ∧
    (handleServerContent s ct interruptedEvent).error = s.error ∧
    (handleServerContent (handleServerContent s ct interruptedEvent) ct2
        (audioEvent [d])).outputSources =
      [{ sid := s.nextSourceId, startTime := ct2, duration := d }] := by
  refine ⟨rfl, rfl, rfl, rfl, rfl, rfl, rfl, rfl, ?_⟩
  simp [handleServerContent, interruptedEvent, audioEvent, handleModelTurn,
    handleTurnComplete, handleInterrupted, scheduleAudioChunk, hctx,
    max_eq_right hct2]

theorem interruption_cancels_playback_preserves_state_witness :
    (handleServerContent c6PreState 3 interruptedEvent).outputSources = [] ∧
    (handleServerContent c6PreState 3 interruptedEvent).nextStartTime = 0 ∧
    (handleServerContent c6PreState 3 interruptedEvent).phase =
      c6PreState.phase ∧
    (handleServerContent c6PreState 3 interruptedEvent).messages =
      c6PreState.messages ∧
    (handleServerContent c6PreState 3 interruptedEvent).lastInputTranscription =
      c6PreState.lastInputTranscription ∧
    (handleServerContent c6PreState 3 interruptedEvent).lastOutputTranscription =
      c6PreState.lastOutputTranscription ∧
    (handleServerContent c6PreState 3 interruptedEvent).isProcessingTool =
      c6PreState.isProcessingTool ∧
    (handleServerContent c6PreState 3 interruptedEvent).error =
      c6PreState.error ∧
    (handleServerContent (handleServerContent c6PreState 3 interruptedEvent) 7
        (audioEvent [2])).outputSources =
      [{ sid := c6PreState.nextSourceId, startTime := 7, duration := 2 }] :=
  interruption_cancels_playback_preserves_state c6PreState 3 7 2 rfl rfl
    (by norm_num)

/-- C7: tool discovery yields the empty list (not an error) for a zero-tool
response, and keeps exactly the well-formed entries of the server response
— those with a string name, a string description and an object input schema
carrying a string type — in their original order, dropping malformed
entries individually. -/
theorem discovery_returns_wellformed_entries_in_order (ts : List JValue) :
    processMcpToolsResponse (some (.obj [("tools", .arr ts)])) =
      (ts.filter wellFormedToolSpec).map projectMcpTool ∧
    processMcpToolsResponse (some (.obj [("tools", .arr [])])) = [] := by
  constructor
  · have h : processMcpToolsResponse (some (.obj [("tools", .arr ts)])) =
        (ts.filter validateMcpTool).map projectMcpTool := rfl
    rw [h, validateMcpTool_eq_wellFormedToolSpec]
  · rfl

/-- C8: when every connect attempt fails, the MCP client makes exactly
`maxRetries = 3` automatic attempts with a fixed 2000 ms delay between
them: the first two failures schedule a retry, the third leaves the
persistent connection error surfaced with no retry scheduled, the
error-driven reconnection effect no longer fires, and the trace is stable
from then on. -/
theorem mcp_retry_bounded_at_three :
    (∀ n, (failTrace n).attempts ≤ maxRetries) ∧
    (∀ n, failTrace (n + 2) = failTrace 2) ∧
    (failTrace 0).retryScheduled = true ∧
    (failTrace 1).retryScheduled = true ∧
    (failTrace 2).attempts = maxRetries ∧
    (failTrace 2).retryScheduled = false ∧
    (failTrace 2).errorSet = true ∧
    reconnectEffectFires (failTrace 2) = false ∧
    maxRetries = 3 ∧ retryDelayMs = 2000 := by
  have h2 : (failTrace 2).retryScheduled = false := by decide
  have hstab : ∀ n, failTrace (n + 2) = failTrace 2 := by
    intro n
    induction n with
    | zero => rfl
    | succ k ih =>
        have hstep : failTrace (k + 3) =
            if (failTrace (k + 2)).retryScheduled then
              connectFailStep (failTrace (k + 2))
            else failTrace (k + 2) := rfl
        show failTrace (k + 3) = failTrace 2
        rw [hstep, ih, h2]
        simp
  refine ⟨?_, hstab, by decide, by decide, by decide, h2, by decide,
    by decide, rfl, rfl⟩
  intro n
  match n with
  | 0 => decide
  | 1 => decide
  | (k + 2) => rw [hstab]; decide

/-- C9: `createBlob` stores each Float32 sample times 32768 into the
Int16Array without clamping — the value wraps modulo 2^16 and is
reinterpreted as signed — so a full-scale sample 1.0 encodes as -32768
(not the positive maximum 32767), -1.0 as -32768, 0.5 as 16384, and an
out-of-range 1.5 wraps to -16384. -/
theorem createBlob_wraps_samples_without_clamping :
    createBlobSamples [1, -1, 1/2, 3/2, 0] =
      [-32768, -32768, 16384, -16384, 0] ∧
    jsToInt16 ((1 : Rat) * 32768) ≠ 32767 := by
  constructor
  · norm_num [createBlobSamples, jsToInt16, ratTrunc]
  · norm_num [jsToInt16, ratTrunc]

/-- C10: `sendMessage` with no active session, or with the session not
connected, returns without touching observable state: no message is
appended, the phase is unchanged, no error is set, and nothing is sent. -/
theorem sendMessage_noop_when_disconnected
    (s : OrchState) (msg : String) (sendOk : Bool)
    (h : s.hasSession = false ∨ s.isConnected = false) :
    sendMessage s msg sendOk = (s, false) := by
  unfold sendMessage
  rcases h with h | h <;> simp [h]

theorem sendMessage_noop_when_disconnected_witness :
    sendMessage { openState with isConnected := false } "Show me order 229"
      true = ({ openState with isConnected := false }, false) :=
  sendMessage_noop_when_disconnected _ _ _ (Or.inr rfl)

end AiLive
